import Mathlib

/-! Verification of the lexical front end of the Liquid template engine.

The definitions below are a shallow embedding of `liquid/lex.py` and
`liquid/expressions/loop/lex.py`.  Source text is a `List Char`; each
regular-expression rule of the Python source is embedded as an explicit
matcher function returning the length of the match (and the relevant
named-capture group, when the rule has one), and the generator loops are
embedded as structurally terminating recursions returning the list of
yielded tokens together with an optional terminating error. -/

namespace Liquid

/-- Token kind constants.  Modelled from the spec: the string constants live
in `liquid/token.py`, which is not under `src/`.  The keyword kinds must
equal their own text, because `_tokenize` reclassifies an identifier with
`kind = value`; the remaining kind names are descriptive strings whose only
required property is distinctness. -/
def TOKEN_LITERAL : String := "literal"

def TOKEN_TAG : String := "tag"

def TOKEN_STATEMENT : String := "statement"

def TOKEN_EXPRESSION : String := "expression"

def TOKEN_IDENTIFIER : String := "identifier"

def TOKEN_STRING : String := "string"

def TOKEN_INTEGER : String := "integer"

def TOKEN_FLOAT : String := "float"

def TOKEN_NEGATIVE : String := "negative"

def TOKEN_DOT : String := "dot"

def TOKEN_COMMA : String := "comma"

def TOKEN_LBRACKET : String := "lbracket"

def TOKEN_RBRACKET : String := "rbracket"

def TOKEN_LPAREN : String := "lparen"

def TOKEN_RPAREN : String := "rparen"

def TOKEN_COLON : String := "colon"

def TOKEN_PIPE : String := "pipe"

def TOKEN_ASSIGN : String := "assign"

def TOKEN_RANGE : String := "range"

def TOKEN_ILLEGAL : String := "illegal"

def TOKEN_IDENTINDEX : String := "identindex"

def TOKEN_IDENTSTRING : String := "identstring"

def TOKEN_NEWLINE : String := "newline"

def TOKEN_SKIP : String := "skip"

def TOKEN_TRUE : String := "true"

def TOKEN_FALSE : String := "false"

def TOKEN_NIL : String := "nil"

def TOKEN_EMPTY : String := "empty"

def TOKEN_AND : String := "and"

def TOKEN_OR : String := "or"

def TOKEN_CONTAINS : String := "contains"

def TOKEN_IN : String := "in"

def TOKEN_OFFSET : String := "offset"

def TOKEN_LIMIT : String := "limit"

def TOKEN_REVERSED : String := "reversed"

def TOKEN_COLS : String := "cols"

def TOKEN_CONTINUE : String := "continue"

def TOKEN_WITH : String := "with"

def TOKEN_FOR : String := "for"

def TOKEN_AS : String := "as"

def TOKEN_BY : String := "by"

def TOKEN_EQ : String := "eq"

def TOKEN_NE : String := "ne"

def TOKEN_LG : String := "lg"

def TOKEN_LT : String := "lt"

def TOKEN_GT : String := "gt"

def TOKEN_LE : String := "le"

def TOKEN_GE : String := "ge"

/-- Modelled from the spec: the operator lookup table `operators` of
`liquid/token.py` (not under `src/`), mapping the captured text of an
operator-group match to a specific operator kind; absence of a mapping is
the unknown-operator error (spec section 4.2). -/
def operators (v : String) : Option String :=
  if v = "==" then some TOKEN_EQ
  else if v = "!=" then some TOKEN_NE
  else if v = "<>" then some TOKEN_LG
  else if v = "<" then some TOKEN_LT
  else if v = ">" then some TOKEN_GT
  else if v = "<=" then some TOKEN_LE
  else if v = ">=" then some TOKEN_GE
  else none

/-- A token: 1-based line number, kind, and matched (possibly rewritten)
text, mirroring `Token(linenum, type, value)`. -/
structure Token where
  linenum : Nat
  kind : String
  value : List Char
deriving DecidableEq

/-- A raised `LiquidSyntaxError`, by the three message shapes the lexers
produce: `unexpected {value!r}`, `unknown operator {value!r}`, and
`expected closing delimiter, found eof` (the template lexer raises the
latter with the same message text in both of its branches). -/
inductive LexErr where
  | unexpected (v : List Char) (line : Nat)
  | unknownOp (v : List Char) (line : Nat)
  | eofDelim (line : Nat)
deriving DecidableEq

/-- Python `\w` restricted to ASCII: letters, digits and underscore. -/
def isWordChar (c : Char) : Bool := c.isAlphanum || c = '_'

/-- The continuation characters of `IDENTIFIER_PATTERN`, `[a-zA-Z0-9_\-]`. -/
def identRestChar (c : Char) : Bool := c.isAlphanum || c = '_' || c = '-'

/-- The continuation characters of the boolean/include identifier pattern,
`[a-zA-Z0-9_\-?]`. -/
def boolIdentRestChar (c : Char) : Bool := c.isAlphanum || c = '_' || c = '-' || c = '?'

/-- The operator characters of the `OP` rule, `[!=<>]`. -/
def isOpChar (c : Char) : Bool := c = '!' || c = '=' || c = '<' || c = '>'

/-- Python `\s` (ASCII): space, tab, newline, carriage return, vertical tab
and form feed; also the character class stripped by `str.lstrip()` and
`str.rstrip()` on ASCII text. -/
def isPySpace (c : Char) : Bool :=
  c = ' ' || c = '\t' || c = '\n' || c = '\r' || c = '\x0b' || c = '\x0c'

/-- The character class `[ \t]` of the SKIP rules. -/
def isLineSpace (c : Char) : Bool := c = ' ' || c = '\t'

/-- The `[ \t\r]` SKIP class of the loop-expression sub-lexer. -/
def isLoopSkipChar (c : Char) : Bool := c = ' ' || c = '\t' || c = '\r'

/-- Length of the maximal run of characters satisfying `p` (a greedy
`p*`). -/
def runLen (p : Char → Bool) (l : List Char) : Nat := (l.takeWhile p).length

/-- Number of newline characters in a span, `value.count("\n")`. -/
def nlCount (l : List Char) : Nat := l.count '\n'

/-- Index of the first occurrence of `ch`, if any. -/
def firstIdx (ch : Char) : List Char → Option Nat
  | [] => none
  | c :: cs => if c = ch then some 0 else (firstIdx ch cs).map (· + 1)

/-- A matcher embeds one rule of a pattern table: applied at the current
scan position it returns the length of the match and, for rules with a
named capture group, the captured span. -/
abbrev Matcher := List Char → Option (Nat × Option (List Char))

/-- Single literal character rule. -/
def mChar (ch : Char) : Matcher := fun s =>
  match s with
  | c :: _ => if c = ch then some (1, none) else none
  | [] => none

/-- Greedy nonempty run `p+` (used for `\d+` and the SKIP rules). -/
def mRun (p : Char → Bool) : Matcher := fun s =>
  match s with
  | c :: cs => if p c then some (1 + runLen p cs, none) else none
  | [] => none

/-- The `\d+` integer rule. -/
def mDigits : Matcher := mRun Char.isDigit

/-- The `\d+\.\d*` float rule: digits, a dot, then optional digits.  The
greedy `\d+` run cannot backtrack usefully because the character after a
maximal digit run is never a digit. -/
def mFloat : Matcher := fun s =>
  match s with
  | c :: cs =>
    if c.isDigit then
      let d := runLen Char.isDigit cs
      match cs.drop d with
      | '.' :: t => some (1 + d + 1 + runLen Char.isDigit t, none)
      | _ => none
    else none
  | [] => none

/-- `STRING_PATTERN`: a quote character, a lazy span up to the first
matching quote, the quote.  The capture is the inner (unquoted) span. -/
def mString : Matcher := fun s =>
  match s with
  | c :: cs =>
    if c = '"' || c = '\'' then
      match firstIdx c cs with
      | some i => some (1 + i + 1, some (cs.take i))
      | none => none
    else none
  | [] => none

/-- An identifier: a `\w` character followed by a run of `restP`
characters. -/
def mIdent (restP : Char → Bool) : Matcher := fun s =>
  match s with
  | c :: cs => if isWordChar c then some (1 + runLen restP cs, none) else none
  | [] => none

/-- The catch-all `.` rule (DOTALL): any single character. -/
def mAny : Matcher := fun s =>
  match s with
  | _ :: _ => some (1, none)
  | [] => none

/-- The `OP` rule `[!=<>]{1,2}`, greedy. -/
def mOp : Matcher := fun s =>
  match s with
  | c :: cs =>
    if isOpChar c then
      match cs with
      | d :: _ => if isOpChar d then some (2, none) else some (1, none)
      | [] => some (1, none)
    else none
  | [] => none

/-- The `\.\.` range rule. -/
def mRange : Matcher := fun s =>
  match s with
  | c :: d :: _ => if c = '.' && d = '.' then some (2, none) else none
  | _ => none

/-- Digits with a trailing word boundary: the body of `-?\d+\b` after the
optional sign.  The boundary fails exactly when a word character follows
the maximal digit run. -/
def intBoundCore (l : List Char) : Option Nat :=
  let d := runLen Char.isDigit l
  if d = 0 then none
  else
    match l.drop d with
    | [] => some d
    | c :: _ => if isWordChar c then none else some d

/-- The loop-expression `-?\d+\b` integer rule. -/
def mIntWordBound : Matcher := fun s =>
  match s with
  | [] => none
  | c :: cs =>
    if c = '-' then (intBoundCore cs).map fun n => (1 + n, none)
    else (intBoundCore (c :: cs)).map fun n => (n, none)

/-- The body of `-?\d+\.(?!\.)\d*` after the optional sign: digits, a dot
not followed by a second dot, then optional digits. -/
def floatLoopCore (l : List Char) : Option Nat :=
  let d := runLen Char.isDigit l
  if d = 0 then none
  else
    match l.drop d with
    | '.' :: t =>
      match t with
      | '.' :: _ => none
      | _ => some (d + 1 + runLen Char.isDigit t)
    | _ => none

/-- The loop-expression float rule `-?\d+\.(?!\.)\d*`. -/
def mFloatLoop : Matcher := fun s =>
  match s with
  | [] => none
  | c :: cs =>
    if c = '-' then (floatLoopCore cs).map fun n => (1 + n, none)
    else (floatLoopCore (c :: cs)).map fun n => (n, none)

/-- Modelled from the spec: `IDENTINDEX_PATTERN` of
`liquid/expressions/common.py` (not under `src/`): an indexed identifier
`name[<optional sign><digits>]` whose capture group is the inner index text
between the brackets (spec section 4.3: the match is reduced to just its
inner index text). -/
def mIdentIndex : Matcher := fun s =>
  match s with
  | [] => none
  | c :: cs =>
    if isWordChar c then
      let n := runLen identRestChar cs
      match cs.drop n with
      | '[' :: t =>
        let sg := match t with | '-' :: _ => 1 | _ => 0
        let t1 := t.drop sg
        let d := runLen Char.isDigit t1
        if d = 0 then none
        else
          match t1.drop d with
          | ']' :: _ => some (1 + n + 1 + sg + d + 1, some (t.take (sg + d)))
          | _ => none
      | _ => none
    else none

/-- Modelled from the spec: `IDENTSTRING_PATTERN` of
`liquid/expressions/common.py` (not under `src/`): the quoted-identifier
spelling `name[<quote>text<quote>]`, whose capture is the quoted inner text
(spec section 4.3: reduced to the quoted inner text and reclassified as a
plain identifier). -/
def mIdentString : Matcher := fun s =>
  match s with
  | [] => none
  | c :: cs =>
    if isWordChar c then
      let n := runLen identRestChar cs
      match cs.drop n with
      | '[' :: q :: t =>
        if q = '"' || q = '\'' then
          match firstIdx q t with
          | some i =>
            match t.drop (i + 1) with
            | ']' :: _ => some (1 + n + 1 + 1 + i + 1 + 1, some (t.take i))
            | _ => none
          | none => none
        else none
      | _ => none
    else none

/-- One rule of a pattern table: kind name and matcher; order in the table
is significant (first match at a position wins). -/
abbrev LexRule := String × Matcher

/-- Combined matcher of `_compile_rules`: try each alternative in order at
the current position and report the kind, length and capture of the first
that matches. -/
def firstMatch : List LexRule → List Char → Option (String × Nat × Option (List Char))
  | [], _ => none
  | (n, m) :: rs, s =>
    match m s with
    | some (k, q) => some (n, k, q)
    | none => firstMatch rs s

/-- `identifier_rules` of `liquid/lex.py`. -/
def identifier_rules : List LexRule :=
  [(TOKEN_INTEGER, mDigits),
   (TOKEN_STRING, mString),
   (TOKEN_IDENTIFIER, mIdent identRestChar),
   (TOKEN_DOT, mChar '.'),
   (TOKEN_LBRACKET, mChar '['),
   (TOKEN_RBRACKET, mChar ']'),
   ("NEWLINE", mChar '\n'),
   ("SKIP", mRun isLineSpace),
   (TOKEN_ILLEGAL, mAny)]

/-- `filtered_expression_rules` of `liquid/lex.py`. -/
def filtered_expression_rules : List LexRule :=
  [(TOKEN_FLOAT, mFloat),
   (TOKEN_INTEGER, mDigits),
   (TOKEN_NEGATIVE, mChar '-'),
   (TOKEN_STRING, mString),
   (TOKEN_IDENTIFIER, mIdent identRestChar),
   (TOKEN_DOT, mChar '.'),
   (TOKEN_COMMA, mChar ','),
   (TOKEN_LBRACKET, mChar '['),
   (TOKEN_RBRACKET, mChar ']'),
   (TOKEN_COLON, mChar ':'),
   (TOKEN_PIPE, mChar '|'),
   ("NEWLINE", mChar '\n'),
   ("SKIP", mRun isLineSpace),
   (TOKEN_ILLEGAL, mAny)]

/-- `filtered_expression_keywords` of `liquid/lex.py`. -/
def filtered_expression_keywords : List String :=
  [TOKEN_TRUE, TOKEN_FALSE, TOKEN_NIL, TOKEN_EMPTY]

/-- `assignment_expression_rules` of `liquid/lex.py`. -/
def assignment_expression_rules : List LexRule :=
  (TOKEN_ASSIGN, mChar '=') :: filtered_expression_rules

/-- `boolean_expression_rules` of `liquid/lex.py`. -/
def boolean_expression_rules : List LexRule :=
  [(TOKEN_FLOAT, mFloat),
   (TOKEN_INTEGER, mDigits),
   (TOKEN_NEGATIVE, mChar '-'),
   (TOKEN_STRING, mString),
   (TOKEN_IDENTIFIER, mIdent boolIdentRestChar),
   (TOKEN_DOT, mChar '.'),
   (TOKEN_LBRACKET, mChar '['),
   (TOKEN_RBRACKET, mChar ']'),
   (TOKEN_COLON, mChar ':'),
   ("NEWLINE", mChar '\n'),
   ("OP", mOp),
   ("SKIP", mRun isLineSpace),
   (TOKEN_ILLEGAL, mAny)]

/-- `boolean_expression_keywords` of `liquid/lex.py`. -/
def boolean_expression_keywords : List String :=
  [TOKEN_TRUE, TOKEN_FALSE, TOKEN_NIL, TOKEN_EMPTY, TOKEN_AND, TOKEN_OR, TOKEN_CONTAINS]

/-- `loop_expression_rules` of `liquid/lex.py`. -/
def loop_expression_rules : List LexRule :=
  [(TOKEN_INTEGER, mDigits),
   (TOKEN_IDENTIFIER, mIdent identRestChar),
   (TOKEN_RANGE, mRange),
   (TOKEN_DOT, mChar '.'),
   (TOKEN_LBRACKET, mChar '['),
   (TOKEN_RBRACKET, mChar ']'),
   (TOKEN_LPAREN, mChar '('),
   (TOKEN_RPAREN, mChar ')'),
   (TOKEN_COLON, mChar ':'),
   ("NEWLINE", mChar '\n'),
   ("SKIP", mRun isLineSpace),
   (TOKEN_ILLEGAL, mAny)]

/-- `loop_expression_keywords` of `liquid/lex.py` (note: no `continue`). -/
def loop_expression_keywords : List String :=
  [TOKEN_IN, TOKEN_OFFSET, TOKEN_LIMIT, TOKEN_REVERSED, TOKEN_COLS]

/-- `include_expression_rules` of `liquid/lex.py`. -/
def include_expression_rules : List LexRule :=
  [(TOKEN_FLOAT, mFloat),
   (TOKEN_INTEGER, mDigits),
   (TOKEN_NEGATIVE, mChar '-'),
   (TOKEN_STRING, mString),
   (TOKEN_IDENTIFIER, mIdent boolIdentRestChar),
   (TOKEN_DOT, mChar '.'),
   (TOKEN_COMMA, mChar ','),
   (TOKEN_LBRACKET, mChar '['),
   (TOKEN_RBRACKET, mChar ']'),
   (TOKEN_COLON, mChar ':'),
   ("NEWLINE", mChar '\n'),
   ("SKIP", mRun isLineSpace),
   (TOKEN_ILLEGAL, mAny)]

/-- `include_expression_keywords` of `liquid/lex.py`. -/
def include_expression_keywords : List String :=
  [TOKEN_TRUE, TOKEN_FALSE, TOKEN_NIL, TOKEN_EMPTY, TOKEN_WITH, TOKEN_FOR, TOKEN_AS]

/-- Outcome of the per-match classification cascade of `_tokenize`. -/
inductive StepOut where
  | tok (t : Token)
  | newlineMark
  | skipMark
  | err (e : LexErr)

/-- The if/elif classification cascade of `_tokenize`: keyword
reclassification, quoted-string capture, operator lookup, newline and skip
markers, and the illegal catch-all. -/
def classify (keywords : List String) (kind : String) (value : List Char)
    (quoted : Option (List Char)) (line : Nat) : StepOut :=
  if kind = TOKEN_IDENTIFIER ∧ String.mk value ∈ keywords then
    .tok ⟨line, String.mk value, value⟩
  else if kind = TOKEN_STRING then .tok ⟨line, TOKEN_STRING, quoted.getD value⟩
  else if kind = "OP" then
    match operators (String.mk value) with
    | some k2 => .tok ⟨line, k2, value⟩
    | none => .err (.unknownOp value line)
  else if kind = "NEWLINE" then .newlineMark
  else if kind = "SKIP" then .skipMark
  else if kind = TOKEN_ILLEGAL then .err (.unexpected value line)
  else .tok ⟨line, kind, value⟩

/-- The generic token-emission loop `_tokenize`: repeatedly take the first
rule matching at the current position, classify it, and emit.  The result
is the list of tokens yielded before a terminating error, if any (a
generator's consumer keeps already-yielded tokens when the generator
raises).  A position matched by no rule is skipped, as `finditer` does;
with a final catch-all rule this never happens.  The structural `fuel`
argument only bounds the recursion; since every match consumes at least
one character, any fuel larger than the input length is never exhausted
(the entry points below pass `length + 1`). -/
def tokenizeWith (rules : List LexRule) (keywords : List String) :
    Nat → List Char → Nat → List Token × Option LexErr
  | 0, _, _ => ([], none)
  | _ + 1, [], _ => ([], none)
  | fuel + 1, c :: cs, line =>
    match firstMatch rules (c :: cs) with
    | none => tokenizeWith rules keywords fuel cs line
    | some (kind, k, q) =>
      let value := (c :: cs).take k
      let rest := cs.drop (k - 1)
      match classify keywords kind value q line with
      | .err e => ([], some e)
      | .newlineMark => tokenizeWith rules keywords fuel rest (line + 1)
      | .skipMark => tokenizeWith rules keywords fuel rest line
      | .tok t =>
        let r := tokenizeWith rules keywords fuel rest line
        (t :: r.1, r.2)

/-- Entry point of the `_tokenize` family: run the loop from line 1 with
sufficient fuel. -/
def runTokenizer (rules : List LexRule) (keywords : List String) (s : String) :
    List Token × Option LexErr :=
  tokenizeWith rules keywords (s.toList.length + 1) s.toList 1

/-- `tokenize_identifier` of `liquid/lex.py`. -/
def tokenize_identifier (s : String) : List Token × Option LexErr :=
  runTokenizer identifier_rules [] s

/-- `tokenize_loop_expression` of `liquid/lex.py`. -/
def tokenize_loop_expression (s : String) : List Token × Option LexErr :=
  runTokenizer loop_expression_rules loop_expression_keywords s

/-- `tokenize_filtered_expression` of `liquid/lex.py`. -/
def tokenize_filtered_expression (s : String) : List Token × Option LexErr :=
  runTokenizer filtered_expression_rules filtered_expression_keywords s

/-- `tokenize_assignment_expression` of `liquid/lex.py`. -/
def tokenize_assignment_expression (s : String) : List Token × Option LexErr :=
  runTokenizer assignment_expression_rules filtered_expression_keywords s

/-- `tokenize_boolean_expression` of `liquid/lex.py`. -/
def tokenize_boolean_expression (s : String) : List Token × Option LexErr :=
  runTokenizer boolean_expression_rules boolean_expression_keywords s

/-- `tokenize_include_expression` of `liquid/lex.py`. -/
def tokenize_include_expression (s : String) : List Token × Option LexErr :=
  runTokenizer include_expression_rules include_expression_keywords s

/-- `tokenize_paginate_expression` of `liquid/lex.py`. -/
def tokenize_paginate_expression (s : String) : List Token × Option LexErr :=
  runTokenizer identifier_rules [TOKEN_BY] s

example : tokenize_boolean_expression "a ~ b" =
    ([⟨1, TOKEN_IDENTIFIER, ['a']⟩], some (.unexpected ['~'] 1)) := by decide

example : tokenize_boolean_expression "a =! b" =
    ([⟨1, TOKEN_IDENTIFIER, ['a']⟩], some (.unknownOp ['=', '!'] 1)) := by decide

example : tokenize_loop_expression "continue" =
    ([⟨1, TOKEN_IDENTIFIER, "continue".toList⟩], none) := by decide

namespace LoopLex

/-- `token_rules` of `liquid/expressions/loop/lex.py`. -/
def token_rules : List LexRule :=
  [(TOKEN_IDENTINDEX, mIdentIndex),
   (TOKEN_IDENTSTRING, mIdentString),
   (TOKEN_RANGE, mRange),
   (TOKEN_FLOAT, mFloatLoop),
   (TOKEN_INTEGER, mIntWordBound),
   (TOKEN_DOT, mChar '.'),
   (TOKEN_IDENTIFIER, mIdent identRestChar),
   (TOKEN_LPAREN, mChar '('),
   (TOKEN_RPAREN, mChar ')'),
   (TOKEN_LBRACKET, mChar '['),
   (TOKEN_RBRACKET, mChar ']'),
   (TOKEN_COLON, mChar ':'),
   (TOKEN_PIPE, mChar '|'),
   (TOKEN_NEWLINE, mChar '\n'),
   (TOKEN_SKIP, mRun isLoopSkipChar),
   (TOKEN_ILLEGAL, mAny)]

/-- `keywords` of `liquid/expressions/loop/lex.py` (note: includes
`continue`). -/
def keywords : List String :=
  [TOKEN_IN, TOKEN_OFFSET, TOKEN_LIMIT, TOKEN_REVERSED, TOKEN_COLS, TOKEN_CONTINUE]

/-- The loop of `tokenize` in `liquid/expressions/loop/lex.py`.  Unlike
`_tokenize`, this loop adds the newlines of the matched span to the line
counter before yielding, rewrites indexed-identifier matches to their
index capture, and rewrites quoted-identifier matches to plain identifiers
carrying the quoted capture. -/
def tokenizeAux : Nat → List Char → Nat → List Token × Option LexErr
  | 0, _, _ => ([], none)
  | _ + 1, [], _ => ([], none)
  | fuel + 1, c :: cs, line =>
    match firstMatch token_rules (c :: cs) with
    | none => tokenizeAux fuel cs line
    | some (kind, k, q) =>
      let value := (c :: cs).take k
      let rest := cs.drop (k - 1)
      let newlines := nlCount value
      let out : StepOut :=
        if kind = TOKEN_IDENTIFIER ∧ String.mk value ∈ keywords then
          .tok ⟨line + newlines, String.mk value, value⟩
        else if kind = TOKEN_IDENTINDEX then .tok ⟨line + newlines, kind, q.getD value⟩
        else if kind = TOKEN_IDENTSTRING then
          .tok ⟨line + newlines, TOKEN_IDENTIFIER, q.getD value⟩
        else if kind = TOKEN_NEWLINE then .newlineMark
        else if kind = TOKEN_SKIP then .skipMark
        else if kind = TOKEN_ILLEGAL then .err (.unexpected value line)
        else .tok ⟨line + newlines, kind, value⟩
      match out with
      | .err e => ([], some e)
      | .newlineMark => tokenizeAux fuel rest (line + 1)
      | .skipMark => tokenizeAux fuel rest line
      | .tok t =>
        let r := tokenizeAux fuel rest t.linenum
        (t :: r.1, r.2)

/-- `tokenize` of `liquid/expressions/loop/lex.py`, from line 1. -/
def tokenize (s : String) : List Token × Option LexErr :=
  tokenizeAux (s.toList.length + 1) s.toList 1

end LoopLex

example : LoopLex.tokenize "items[0]" = ([⟨1, TOKEN_IDENTINDEX, ['0']⟩], none) := by decide

example : LoopLex.tokenize "continue" = ([⟨1, "continue", "continue".toList⟩], none) := by decide

example : LoopLex.tokenize "product in collection limit: 5 offset: 2" =
    ([⟨1, TOKEN_IDENTIFIER, "product".toList⟩,
      ⟨1, "in", "in".toList⟩,
      ⟨1, TOKEN_IDENTIFIER, "collection".toList⟩,
      ⟨1, "limit", "limit".toList⟩,
      ⟨1, TOKEN_COLON, [':']⟩,
      ⟨1, TOKEN_INTEGER, ['5']⟩,
      ⟨1, "offset", "offset".toList⟩,
      ⟨1, TOKEN_COLON, [':']⟩,
      ⟨1, TOKEN_INTEGER, ['2']⟩], none) := by decide

example : LoopLex.tokenize "(1..5)" =
    ([⟨1, TOKEN_LPAREN, ['(']⟩,
      ⟨1, TOKEN_INTEGER, ['1']⟩,
      ⟨1, TOKEN_RANGE, "..".toList⟩,
      ⟨1, TOKEN_INTEGER, ['5']⟩,
      ⟨1, TOKEN_RPAREN, [')']⟩], none) := by decide

/-- One line matched by `LIQUID_EXPRESSION_RE`
(`[ \t]*(?P<name>\w+)[ \t]*(?P<expr>.*)[ \t]*?(\n|$)`, compiled without
DOTALL, so `.` stops at a newline).  At the current position the match
succeeds exactly when a `\w` character follows the leading `[ \t]` run;
the result is the name capture, the expr capture and the total length of
the matched span (including the terminating newline, when present). -/
def liquidLineMatchAt (s : List Char) : Option (List Char × List Char × Nat) :=
  match s with
  | [] => none
  | _ =>
    let w := runLen isLineSpace s
    match s.drop w with
    | [] => none
    | c :: _ =>
      if isWordChar c then
        let t := s.drop w
        let name := t.takeWhile isWordChar
        let t1 := t.drop name.length
        let mid := runLen isLineSpace t1
        let t2 := t1.drop mid
        let expr := t2.takeWhile (fun x => x ≠ '\n')
        let t3 := t2.drop expr.length
        let nl := match t3 with | '\n' :: _ => 1 | _ => 0
        some (name, expr, w + name.length + mid + expr.length + nl)
      else none

/-- The loop of `tokenize_liquid_expression`: `finditer` over
`LIQUID_EXPRESSION_RE`.  A position where the pattern does not match is
skipped without touching the line counter (so the newline of a blank line
is never counted); a matched line yields a tag token and, when the expr
capture is non-empty, an expression token, both at the line count before
the match, after which the counter grows by the newlines of the matched
span. -/
def tokenize_liquid_expression_aux : Nat → List Char → Nat → List Token
  | 0, _, _ => []
  | _ + 1, [], _ => []
  | fuel + 1, c :: cs, line =>
    match liquidLineMatchAt (c :: cs) with
    | none => tokenize_liquid_expression_aux fuel cs line
    | some (name, expr, n) =>
      (⟨line, TOKEN_TAG, name⟩ ::
        (if expr = [] then [] else [⟨line, TOKEN_EXPRESSION, expr⟩])) ++
        tokenize_liquid_expression_aux fuel (cs.drop (n - 1))
          (line + nlCount ((c :: cs).take n))

/-- `tokenize_liquid_expression` of `liquid/lex.py`. -/
def tokenize_liquid_expression (s : String) : List Token :=
  tokenize_liquid_expression_aux (s.toList.length + 1) s.toList 1

example : tokenize_liquid_expression "echo 'hi'" =
    [⟨1, TOKEN_TAG, "echo".toList⟩, ⟨1, TOKEN_EXPRESSION, "'hi'".toList⟩] := by decide

example : tokenize_liquid_expression "x\n\ny" =
    [⟨1, TOKEN_TAG, ['x']⟩, ⟨2, TOKEN_TAG, ['y']⟩] := by decide

/-- The four configurable delimiter strings of `compile_liquid_rules`. -/
structure TemplateCfg where
  tag_start : List Char
  tag_end : List Char
  stmt_start : List Char
  stmt_end : List Char
deriving DecidableEq

/-- The default delimiter configuration of `compile_liquid_rules`. -/
def defaultCfg : TemplateCfg :=
  ⟨"\x7b%".toList, "%\x7d".toList, "\x7b\x7b".toList, "\x7d\x7d".toList⟩

/-- Try `\s*(?P<flag>-?)end` with exactly `ws` whitespace characters
consumed: the optional dash is greedy, so with a leading dash the
dash-consuming branch is tried first. -/
def endingAtPos (endD t : List Char) (ws : Nat) : Option (Bool × Nat) :=
  match t.drop ws with
  | '-' :: u1 =>
    if endD.isPrefixOf u1 then some (true, ws + 1 + endD.length)
    else if endD.isPrefixOf ('-' :: u1) then some (false, ws + endD.length)
    else none
  | u => if endD.isPrefixOf u then some (false, ws + endD.length) else none

/-- Backtracking search for `\s*(?P<flag>-?)end` at the start of `t`:
the greedy `\s*` tries the longest whitespace run first and gives
characters back one at a time. -/
def endingFrom (endD t : List Char) : Nat → Option (Bool × Nat)
  | 0 => endingAtPos endD t 0
  | ws + 1 =>
    match endingAtPos endD t (ws + 1) with
    | some r => some r
    | none => endingFrom endD t ws

/-- Match `\s*(?P<flag>-?)end` at the start of `t`, returning the dash
flag and the number of characters consumed. -/
def matchEnding (endD t : List Char) : Option (Bool × Nat) :=
  endingFrom endD t (runLen isPySpace t)

/-- The lazy capture `(?P<grp>.*?)\s*(?P<flag>-?)end` (DOTALL): the
shortest prefix after which the ending matches.  Returns the captured
prefix, the dash flag, and the total number of characters consumed from
`t` (capture plus ending). -/
def scanToEnding (endD : List Char) : List Char → Option (List Char × Bool × Nat)
  | [] =>
    match matchEnding endD [] with
    | some (fl, el) => some ([], fl, el)
    | none => none
  | c :: t1 =>
    match matchEnding endD (c :: t1) with
    | some (fl, el) => some ([], fl, el)
    | none => (scanToEnding endD t1).map fun r => (c :: r.1, r.2.1, r.2.2 + 1)

/-- The `STATEMENT` rule `stmt_s-?\s*(?P<stmt>.*?)\s*(?P<rss>-?)stmt_e`:
total matched length, the `stmt` capture and the `rss` flag.  The leading
`-?` and `\s*` are taken greedily without backtracking, which agrees with
the regular expression whenever the closing delimiter does not itself
begin with a dash or whitespace character. -/
def matchStmt (cfg : TemplateCfg) (s : List Char) : Option (Nat × List Char × Bool) :=
  if cfg.stmt_start.isPrefixOf s then
    let t0 := s.drop cfg.stmt_start.length
    let dash := match t0 with | '-' :: _ => 1 | _ => 0
    let t1 := t0.drop dash
    let w := runLen isPySpace t1
    match scanToEnding cfg.stmt_end (t1.drop w) with
    | some (cap, rss, consumed) =>
      some (cfg.stmt_start.length + dash + w + consumed, cap, rss)
    | none => none
  else none

/-- The `TAG` rule
`tag_s-?\s*(?P<name>\w*)\s*(?P<expr>.*?)\s*(?P<rst>-?)tag_e`: total
matched length, the `name` and `expr` captures and the `rst` flag.  The
`name` group is zero or more word characters, so a tag with no name still
matches (and is not treated as literal text). -/
def matchTag (cfg : TemplateCfg) (s : List Char) :
    Option (Nat × List Char × List Char × Bool) :=
  if cfg.tag_start.isPrefixOf s then
    let t0 := s.drop cfg.tag_start.length
    let dash := match t0 with | '-' :: _ => 1 | _ => 0
    let t1 := t0.drop dash
    let w := runLen isPySpace t1
    let t2 := t1.drop w
    let name := t2.takeWhile isWordChar
    let t3 := t2.drop name.length
    let w2 := runLen isPySpace t3
    match scanToEnding cfg.tag_end (t3.drop w2) with
    | some (cap, rst, consumed) =>
      some (cfg.tag_start.length + dash + w + name.length + w2 + consumed, name, cap, rst)
    | none => none
  else none

/-- The closing half `tag_s\s*endraw\s*tag_e` of the `RAW` rule, matched
at the start of `t`: number of characters consumed. -/
def matchRawClose (cfg : TemplateCfg) (t : List Char) : Option Nat :=
  if cfg.tag_start.isPrefixOf t then
    let u0 := t.drop cfg.tag_start.length
    let w1 := runLen isPySpace u0
    let u1 := u0.drop w1
    if ("endraw".toList).isPrefixOf u1 then
      let u2 := u1.drop 6
      let w2 := runLen isPySpace u2
      if cfg.tag_end.isPrefixOf (u2.drop w2) then
        some (cfg.tag_start.length + w1 + 6 + w2 + cfg.tag_end.length)
      else none
    else none
  else none

/-- The lazy `(?P<raw>.*?)` interior of the `RAW` rule: shortest prefix
followed by the closing `endraw` tag.  Returns the interior capture and
the total characters consumed (interior plus closing tag). -/
def scanRaw (cfg : TemplateCfg) : List Char → Option (List Char × Nat)
  | [] =>
    match matchRawClose cfg [] with
    | some n => some ([], n)
    | none => none
  | c :: t1 =>
    match matchRawClose cfg (c :: t1) with
    | some n => some ([], n)
    | none => (scanRaw cfg t1).map fun r => (c :: r.1, r.2 + 1)

/-- The `RAW` rule
`tag_s\s*raw\s*tag_e(?P<raw>.*?)tag_s\s*endraw\s*tag_e`: total matched
length and the `raw` interior capture. -/
def matchRaw (cfg : TemplateCfg) (s : List Char) : Option (Nat × List Char) :=
  if cfg.tag_start.isPrefixOf s then
    let t0 := s.drop cfg.tag_start.length
    let w1 := runLen isPySpace t0
    let t1 := t0.drop w1
    if ("raw".toList).isPrefixOf t1 then
      let t2 := t1.drop 3
      let w2 := runLen isPySpace t2
      if cfg.tag_end.isPrefixOf (t2.drop w2) then
        let openLen := cfg.tag_start.length + w1 + 3 + w2 + cfg.tag_end.length
        match scanRaw cfg (s.drop openLen) with
        | some (interior, n) => some (openLen + n, interior)
        | none => none
      else none
    else none
  else none

/-- Does a tag- or statement-opening delimiter start here?  The lookahead
of the `LITERAL` rule tries the tag delimiter first. -/
def delimAt (cfg : TemplateCfg) (t : List Char) : Bool :=
  cfg.tag_start.isPrefixOf t || cfg.stmt_start.isPrefixOf t

/-- The `rstrip` capture of the `LITERAL` lookahead: a dash directly after
the opening delimiter found by `delimAt`. -/
def dashAfterDelim (cfg : TemplateCfg) (t : List Char) : Bool :=
  let d := if cfg.tag_start.isPrefixOf t then cfg.tag_start.length else cfg.stmt_start.length
  match t.drop d with
  | '-' :: _ => true
  | _ => false

/-- Scan for the end of a literal run: the first position (at least one
character in) where a tag- or statement-opening delimiter starts, or end
of input.  Returns the length of the run and the `rstrip` flag. -/
def litScanGo (cfg : TemplateCfg) : List Char → Nat → Nat × Bool
  | [], acc => (acc, false)
  | c :: t1, acc =>
    if delimAt cfg (c :: t1) then (acc, dashAfterDelim cfg (c :: t1))
    else litScanGo cfg t1 (acc + 1)

/-- The `LITERAL` rule `.+?(?=((tag_s|stmt_s)(?P<rstrip>-?))|$)` (DOTALL):
the lazy `.+?` takes at least one character and stops just before the next
opening delimiter, or at end of input (where the `rstrip` group does not
participate and is falsy). -/
def matchLit (cfg : TemplateCfg) (s : List Char) : Nat × Bool :=
  match s with
  | [] => (0, false)
  | _ :: cs => litScanGo cfg cs 1

/-- Which alternative of the combined template pattern matched at the
current position, with its captures; alternatives are tried in the order
`RAW`, `STATEMENT`, `TAG`, `LITERAL`, and `LITERAL` always matches on
non-empty input. -/
inductive TMatch where
  | rawBlock (total : Nat) (interior : List Char)
  | stmtRegion (total : Nat) (inner : List Char) (rss : Bool)
  | tagRegion (total : Nat) (name expr : List Char) (rst : Bool)
  | litRun (total : Nat) (rstrip : Bool)
deriving DecidableEq

/-- First-match-wins dispatch among the four template rules. -/
def templateMatch (cfg : TemplateCfg) (s : List Char) : TMatch :=
  match matchRaw cfg s with
  | some (n, interior) => .rawBlock n interior
  | none =>
    match matchStmt cfg s with
    | some (n, inner, rss) => .stmtRegion n inner rss
    | none =>
      match matchTag cfg s with
      | some (n, name, expr, rst) => .tagRegion n name expr rst
      | none =>
        let p := matchLit cfg s
        .litRun p.1 p.2

/-- Drop trailing characters satisfying `p` (Python `str.rstrip()`). -/
def dropTrailWhile (p : Char → Bool) (l : List Char) : List Char :=
  (l.reverse.dropWhile p).reverse

/-- The processed value of a literal match of length `n`: left-stripped
when the pending trim flag is set, right-stripped when the lookahead saw a
trailing trim marker. -/
def litProcessed (s : List Char) (n : Nat) (lstrip rstrip : Bool) : List Char :=
  let v0 := s.take n
  let v1 := if lstrip then v0.dropWhile isPySpace else v0
  if rstrip then dropTrailWhile isPySpace v1 else v1

/-- `_tokenize_template` of `liquid/lex.py`: the template delimiting
lexer.  State per step: the remaining input, the accumulated line count,
and the pending left-trim flag.  Every token carries the line count from
before its span was consumed; the counter then grows by the newlines of
the span.  A literal whose processed value still begins with the
hardcoded default opening delimiters raises the
expected-closing-delimiter error at the advanced line count.  The `fuel`
argument only bounds the structural recursion and is never exhausted when
it exceeds the input length. -/
def _tokenize_template (cfg : TemplateCfg) : Nat → List Char → Nat → Bool → List Token × Option LexErr
  | 0, _, _, _ => ([], none)
  | _ + 1, [], _, _ => ([], none)
  | fuel + 1, c :: cs, line, lstrip =>
    let s := c :: cs
    match templateMatch cfg s with
    | .rawBlock n interior =>
      let line2 := line + nlCount (s.take n)
      let r := _tokenize_template cfg fuel (cs.drop (n - 1)) line2 lstrip
      (⟨line, TOKEN_LITERAL, interior⟩ :: r.1, r.2)
    | .stmtRegion n inner rss =>
      let line2 := line + nlCount (s.take n)
      let r := _tokenize_template cfg fuel (cs.drop (n - 1)) line2 rss
      (⟨line, TOKEN_STATEMENT, inner⟩ :: r.1, r.2)
    | .tagRegion n name expr rst =>
      let line2 := line + nlCount (s.take n)
      let r := _tokenize_template cfg fuel (cs.drop (n - 1)) line2 rst
      if expr = [] then (⟨line, TOKEN_TAG, name⟩ :: r.1, r.2)
      else (⟨line, TOKEN_TAG, name⟩ :: ⟨line, TOKEN_EXPRESSION, expr⟩ :: r.1, r.2)
    | .litRun n rstrip =>
      let line2 := line + nlCount (s.take n)
      let v := litProcessed s n lstrip rstrip
      if v = [] then _tokenize_template cfg fuel (cs.drop (n - 1)) line2 lstrip
      else if ("\x7b\x7b".toList).isPrefixOf v then ([], some (.eofDelim line2))
      else if ("\x7b%".toList).isPrefixOf v then ([], some (.eofDelim line2))
      else
        let r := _tokenize_template cfg fuel (cs.drop (n - 1)) line2 lstrip
        (⟨line, TOKEN_LITERAL, v⟩ :: r.1, r.2)

/-- `get_lexer` applied to a source string: run the template lexer from
line 1 with no pending trim and sufficient fuel. -/
def get_lexer (cfg : TemplateCfg) (src : String) : List Token × Option LexErr :=
  _tokenize_template cfg (src.toList.length + 1) src.toList 1 false

example : get_lexer defaultCfg "\x7b\x7b x \x7d\x7d" =
    ([⟨1, TOKEN_STATEMENT, ['x']⟩], none) := by decide

example : get_lexer defaultCfg "\x7b% if true %\x7da\x7b% endif %\x7d" =
    ([⟨1, TOKEN_TAG, "if".toList⟩,
      ⟨1, TOKEN_EXPRESSION, "true".toList⟩,
      ⟨1, TOKEN_LITERAL, ['a']⟩,
      ⟨1, TOKEN_TAG, "endif".toList⟩], none) := by decide

example : get_lexer defaultCfg "\x7b\x7b x" = ([], some (.eofDelim 1)) := by decide

example : get_lexer defaultCfg "\x7b%  %\x7d" = ([⟨1, TOKEN_TAG, []⟩], none) := by decide

example : get_lexer defaultCfg "\x7b% . %\x7d" =
    ([⟨1, TOKEN_TAG, []⟩, ⟨1, TOKEN_EXPRESSION, ['.']⟩], none) := by decide

example : get_lexer ⟨"<%".toList, "%>".toList, "<<".toList, ">>".toList⟩ "<< x" =
    ([⟨1, TOKEN_LITERAL, "<< x".toList⟩], none) := by decide

example :
    get_lexer defaultCfg "\x7b% if x -%\x7d\x7b% raw %\x7d R \x7b% endraw %\x7d  world" =
    ([⟨1, TOKEN_TAG, "if".toList⟩,
      ⟨1, TOKEN_EXPRESSION, ['x']⟩,
      ⟨1, TOKEN_LITERAL, " R ".toList⟩,
      ⟨1, TOKEN_LITERAL, "world".toList⟩], none) := by decide

example : get_lexer defaultCfg "\x7b%- if x -%\x7d\n  y\n\x7b%- endif -%\x7d" =
    ([⟨1, TOKEN_TAG, "if".toList⟩,
      ⟨1, TOKEN_EXPRESSION, ['x']⟩,
      ⟨1, TOKEN_LITERAL, ['y']⟩,
      ⟨3, TOKEN_TAG, "endif".toList⟩], none) := by decide

/-! ## Claims about the template delimiting lexer -/

/-- C8: tokenizing the tag/literal/tag source with default delimiters
yields exactly the four tokens tag `if`, expression `true`, literal `a`
and tag `endif`, in that order, with no expression token for `endif`. -/
theorem c8_theorem :
    get_lexer defaultCfg "\x7b% if true %\x7da\x7b% endif %\x7d" =
      ([⟨1, TOKEN_TAG, "if".toList⟩,
        ⟨1, TOKEN_EXPRESSION, "true".toList⟩,
        ⟨1, TOKEN_LITERAL, ['a']⟩,
        ⟨1, TOKEN_TAG, "endif".toList⟩], none) := by decide

/-- C1 counterexample: under the non-default configuration with tag
delimiters `<%`/`%>` and statement delimiters `<<`/`>>`, the unterminated
statement source `<< x` — whose literal span begins with the configured
statement-opening delimiter — does NOT raise any error: it is returned as
a plain literal token, because the error check in `_tokenize_template`
tests the hardcoded strings of the default delimiters, not the configured
ones. -/
theorem c1_counterexample :
    get_lexer ⟨"<%".toList, "%>".toList, "<<".toList, ">>".toList⟩ "<< x" =
      ([⟨1, TOKEN_LITERAL, "<< x".toList⟩], none) ∧
    ("<<".toList).isPrefixOf ("<< x".toList) = true := by decide

/-- C1 (amended): for every configuration and every source, when the
template lexer matches a literal span whose processed text begins with the
hardcoded default statement-opening or tag-opening delimiter strings, it
raises the expected-closing-delimiter-at-end-of-input error at the
accumulated line count (the count after the span's newlines are added). -/
theorem c1_theorem (cfg : TemplateCfg) (fuel : Nat) (c : Char) (cs : List Char)
    (line : Nat) (f : Bool) (n : Nat) (rstrip : Bool)
    (hm : templateMatch cfg (c :: cs) = .litRun n rstrip)
    (hv : (['\x7b', '\x7b'] : List Char).isPrefixOf (litProcessed (c :: cs) n f rstrip) = true ∨
          (['\x7b', '%'] : List Char).isPrefixOf (litProcessed (c :: cs) n f rstrip) = true) :
    _tokenize_template cfg (fuel + 1) (c :: cs) line f =
      ([], some (.eofDelim (line + nlCount ((c :: cs).take n)))) := by
  rcases hv with hv | hv
  · have hne : litProcessed (c :: cs) n f rstrip ≠ [] := by
      intro he
      rw [he] at hv
      simp [List.isPrefixOf] at hv
    simp [_tokenize_template, hm, hne, hv]
  · obtain ⟨t, ht⟩ := (List.isPrefixOf_iff_prefix).mp hv
    have hne : litProcessed (c :: cs) n f rstrip ≠ [] := by
      rw [← ht]
      simp
    have hnot : ¬ ((['\x7b', '\x7b'] : List Char).isPrefixOf
        (litProcessed (c :: cs) n f rstrip) = true) := by
      rw [← ht]
      simp [List.isPrefixOf]
    simp [_tokenize_template, hm, hne, hnot, hv]

/-- Witness for `c1_theorem`: the unterminated default-delimiter statement
source raises the error at line 1. -/
theorem c1_witness :
    _tokenize_template defaultCfg (4 + 1) ('\x7b' :: "\x7b x".toList) 1 false =
      ([], some (.eofDelim 1)) :=
  (c1_theorem defaultCfg 4 '\x7b' "\x7b x".toList 1 false 4 false (by decide)
    (Or.inl (by decide))).trans (by decide)

/-- C2 counterexample: the default-delimiter source holding a tag region
with an empty name and the non-empty remainder `.` yields an expression
token for that region, contradicting the claim that no expression token is
emitted for an empty-name tag region. -/
theorem c2_counterexample :
    get_lexer defaultCfg "\x7b% . %\x7d" =
      ([⟨1, TOKEN_TAG, []⟩, ⟨1, TOKEN_EXPRESSION, ['.']⟩], none) ∧
    (get_lexer defaultCfg "\x7b% . %\x7d").1.map Token.kind =
      [TOKEN_TAG, TOKEN_EXPRESSION] := by decide

/-- C2 (amended): whenever the template lexer matches a tag region whose
name capture is empty, it emits a tag token with the empty value, then an
expression token exactly when the expression remainder is non-empty, and
continues after the whole region — it never emits the region (or its
delimiters) as a literal-text token. -/
theorem c2_theorem (cfg : TemplateCfg) (fuel : Nat) (c : Char) (cs : List Char)
    (line : Nat) (f : Bool) (n : Nat) (name expr : List Char) (rst : Bool)
    (hm : templateMatch cfg (c :: cs) = .tagRegion n name expr rst)
    (_hname : name = []) :
    _tokenize_template cfg (fuel + 1) (c :: cs) line f =
      ((⟨line, TOKEN_TAG, name⟩ ::
          (if expr = [] then [] else [⟨line, TOKEN_EXPRESSION, expr⟩])) ++
         (_tokenize_template cfg fuel (cs.drop (n - 1))
           (line + nlCount ((c :: cs).take n)) rst).1,
       (_tokenize_template cfg fuel (cs.drop (n - 1))
         (line + nlCount ((c :: cs).take n)) rst).2) := by
  by_cases he : expr = []
  · simp [_tokenize_template, hm, he]
  · simp [_tokenize_template, hm, he]

/-- Witness for `c2_theorem`: the malformed default-delimiter tag with an
empty name and empty remainder yields exactly one tag token with the empty
value and no expression token. -/
theorem c2_witness :
    _tokenize_template defaultCfg (6 + 1) ('\x7b' :: "%  %\x7d".toList) 1 false =
      ([⟨1, TOKEN_TAG, []⟩], none) :=
  (c2_theorem defaultCfg 6 '\x7b' "%  %\x7d".toList 1 false 6 [] [] false
    (by decide) rfl).trans (by decide)

/-- C5: every token yielded by a template-lexer step carries the line
count from before the step's span was consumed, and the continuation of
the scan runs at that count plus the number of newline characters inside
the span — for each of the four region kinds. -/
theorem c5_theorem (cfg : TemplateCfg) (fuel : Nat) (c : Char) (cs : List Char)
    (line : Nat) (f : Bool) :
    (∀ n interior, templateMatch cfg (c :: cs) = .rawBlock n interior →
      _tokenize_template cfg (fuel + 1) (c :: cs) line f =
        (⟨line, TOKEN_LITERAL, interior⟩ ::
           (_tokenize_template cfg fuel (cs.drop (n - 1))
             (line + nlCount ((c :: cs).take n)) f).1,
         (_tokenize_template cfg fuel (cs.drop (n - 1))
           (line + nlCount ((c :: cs).take n)) f).2)) ∧
    (∀ n inner rss, templateMatch cfg (c :: cs) = .stmtRegion n inner rss →
      _tokenize_template cfg (fuel + 1) (c :: cs) line f =
        (⟨line, TOKEN_STATEMENT, inner⟩ ::
           (_tokenize_template cfg fuel (cs.drop (n - 1))
             (line + nlCount ((c :: cs).take n)) rss).1,
         (_tokenize_template cfg fuel (cs.drop (n - 1))
           (line + nlCount ((c :: cs).take n)) rss).2)) ∧
    (∀ n name expr rst, templateMatch cfg (c :: cs) = .tagRegion n name expr rst →
      _tokenize_template cfg (fuel + 1) (c :: cs) line f =
        ((⟨line, TOKEN_TAG, name⟩ ::
            (if expr = [] then [] else [⟨line, TOKEN_EXPRESSION, expr⟩])) ++
           (_tokenize_template cfg fuel (cs.drop (n - 1))
             (line + nlCount ((c :: cs).take n)) rst).1,
         (_tokenize_template cfg fuel (cs.drop (n - 1))
           (line + nlCount ((c :: cs).take n)) rst).2)) ∧
    (∀ n rstrip, templateMatch cfg (c :: cs) = .litRun n rstrip →
      litProcessed (c :: cs) n f rstrip ≠ [] →
      (['\x7b', '\x7b'] : List Char).isPrefixOf (litProcessed (c :: cs) n f rstrip) = false →
      (['\x7b', '%'] : List Char).isPrefixOf (litProcessed (c :: cs) n f rstrip) = false →
      _tokenize_template cfg (fuel + 1) (c :: cs) line f =
        (⟨line, TOKEN_LITERAL, litProcessed (c :: cs) n f rstrip⟩ ::
           (_tokenize_template cfg fuel (cs.drop (n - 1))
             (line + nlCount ((c :: cs).take n)) f).1,
         (_tokenize_template cfg fuel (cs.drop (n - 1))
           (line + nlCount ((c :: cs).take n)) f).2)) := by
  refine ⟨?_, ?_, ?_, ?_⟩
  · intro n interior hm
    simp [_tokenize_template, hm]
  · intro n inner rss hm
    simp [_tokenize_template, hm]
  · intro n name expr rst hm
    by_cases he : expr = [] <;> simp [_tokenize_template, hm, he]
  · intro n rstrip hm hne h1 h2
    simp [_tokenize_template, hm, hne, h1, h2]

/-- Witness for `c5_theorem`: the statement region of the default
single-statement source is emitted at line 1 and the scan continues at
line 1 (its span holds no newline). -/
theorem c5_witness :
    _tokenize_template defaultCfg (7 + 1) ('\x7b' :: "\x7b x \x7d\x7d".toList) 1 false =
      ([⟨1, TOKEN_STATEMENT, ['x']⟩], none) :=
  ((c5_theorem defaultCfg 7 '\x7b' "\x7b x \x7d\x7d".toList 1 false).2.1 7 ['x'] false
    (by decide)).trans (by decide)

/-- C10: a raw block neither sets nor clears the pending left-trim flag —
the continuation runs with the same flag that the step received — and its
interior is emitted verbatim (never trimmed, whatever the flag); a literal
run likewise leaves the flag unchanged; consequently, a trailing trim
marker on a tag carries across an intervening raw block to the next
literal run, as in the concrete source below where the raw interior keeps
its whitespace and the final literal is still left-stripped. -/
theorem c10_theorem :
    (∀ (cfg : TemplateCfg) (fuel : Nat) (c : Char) (cs : List Char)
       (line : Nat) (f : Bool) (n : Nat) (interior : List Char),
      templateMatch cfg (c :: cs) = .rawBlock n interior →
      _tokenize_template cfg (fuel + 1) (c :: cs) line f =
        (⟨line, TOKEN_LITERAL, interior⟩ ::
           (_tokenize_template cfg fuel (cs.drop (n - 1))
             (line + nlCount ((c :: cs).take n)) f).1,
         (_tokenize_template cfg fuel (cs.drop (n - 1))
           (line + nlCount ((c :: cs).take n)) f).2)) ∧
    (∀ (cfg : TemplateCfg) (fuel : Nat) (c : Char) (cs : List Char)
       (line : Nat) (f : Bool) (n : Nat) (rstrip : Bool),
      templateMatch cfg (c :: cs) = .litRun n rstrip →
      litProcessed (c :: cs) n f rstrip = [] →
      _tokenize_template cfg (fuel + 1) (c :: cs) line f =
        _tokenize_template cfg fuel (cs.drop (n - 1))
          (line + nlCount ((c :: cs).take n)) f) ∧
    get_lexer defaultCfg "\x7b% if x -%\x7d\x7b% raw %\x7d R \x7b% endraw %\x7d  world" =
      ([⟨1, TOKEN_TAG, "if".toList⟩,
        ⟨1, TOKEN_EXPRESSION, ['x']⟩,
        ⟨1, TOKEN_LITERAL, " R ".toList⟩,
        ⟨1, TOKEN_LITERAL, "world".toList⟩], none) := by
  refine ⟨?_, ?_, by decide⟩
  · intro cfg fuel c cs line f n interior hm
    simp [_tokenize_template, hm]
  · intro cfg fuel c cs line f n rstrip hm hv
    simp [_tokenize_template, hm, hv]

/-- Witness for `c10_theorem`: a raw block whose interior ` R ` is emitted
verbatim while the received left-trim flag is still pending for the
following literal. -/
theorem c10_witness :
    _tokenize_template defaultCfg (30 + 1)
      ('\x7b' :: "% raw %\x7d R \x7b% endraw %\x7d  world".toList) 1 true =
      ([⟨1, TOKEN_LITERAL, " R ".toList⟩, ⟨1, TOKEN_LITERAL, "world".toList⟩], none) :=
  (c10_theorem.1 defaultCfg 30 '\x7b' "% raw %\x7d R \x7b% endraw %\x7d  world".toList
    1 true 24 " R ".toList (by decide)).trans (by decide)

/-! ## Claims about the sub-lexers -/

/-- C6: the loop-expression sub-lexer turns `items[0]` into exactly one
identifier-index token whose value is the inner index text `0` — not an
identifier followed by bracket and integer tokens. -/
theorem c6_theorem : LoopLex.tokenize "items[0]" =
    ([⟨1, TOKEN_IDENTINDEX, ['0']⟩], none) := by decide

/-- C4 counterexample: in the liquid-line sub-lexer the source holding a
blank line between two tag lines puts the second tag token at line 2, even
though two newline characters precede its line (the claim would demand
line 3): the blank line is skipped by `finditer` and its newline is never
counted. -/
theorem c4_counterexample :
    tokenize_liquid_expression "x\n\ny" =
      [⟨1, TOKEN_TAG, ['x']⟩, ⟨2, TOKEN_TAG, ['y']⟩] ∧
    nlCount ("x\n\n".toList) = 2 := by decide

/-- C4 (amended): the liquid-line sub-lexer's line counter grows only by
the newlines inside matched line spans: a position where the line pattern
does not match is skipped without touching the counter, and a matched
line emits its tag token (and expression token, when the remainder is
non-empty) at the count before the span, after which the counter grows by
the newlines of the span. -/
theorem c4_theorem (fuel : Nat) (c : Char) (cs : List Char) (line : Nat) :
    (liquidLineMatchAt (c :: cs) = none →
      tokenize_liquid_expression_aux (fuel + 1) (c :: cs) line =
        tokenize_liquid_expression_aux fuel cs line) ∧
    (∀ name expr n, liquidLineMatchAt (c :: cs) = some (name, expr, n) →
      tokenize_liquid_expression_aux (fuel + 1) (c :: cs) line =
        (⟨line, TOKEN_TAG, name⟩ ::
          (if expr = [] then [] else [⟨line, TOKEN_EXPRESSION, expr⟩])) ++
          tokenize_liquid_expression_aux fuel (cs.drop (n - 1))
            (line + nlCount ((c :: cs).take n))) := by
  constructor
  · intro h
    simp [tokenize_liquid_expression_aux, h]
  · intro name expr n h
    simp [tokenize_liquid_expression_aux, h]

/-- Witness for `c4_theorem`: the first line of the blank-line source is
matched, emits its tag token at line 1, and the scan resumes after the
span at line 2. -/
theorem c4_witness :
    tokenize_liquid_expression_aux (4 + 1) ('x' :: "\n\ny".toList) 1 =
      [⟨1, TOKEN_TAG, ['x']⟩, ⟨2, TOKEN_TAG, ['y']⟩] :=
  ((c4_theorem 4 'x' "\n\ny".toList 1).2 ['x'] [] 2 (by decide)).trans (by decide)

/-- An identifier-shaped word: a word character that is not a digit,
followed by identifier-continuation characters.  Every keyword of the
loop-expression grammars has this shape. -/
def isIdentWordB : List Char → Bool
  | [] => false
  | c :: cs => isWordChar c && !c.isDigit && cs.all identRestChar

/-- C3 counterexample: the two loop-expression tokenizers do not share one
keyword set: `tokenize` of `liquid/expressions/loop/lex.py` reclassifies
the identifier `continue` to a keyword token, but `tokenize_loop_expression`
of `liquid/lex.py` leaves it a generic identifier, because
`loop_expression_keywords` lacks `continue`. -/
theorem c3_counterexample :
    tokenize_loop_expression "continue" =
      ([⟨1, TOKEN_IDENTIFIER, "continue".toList⟩], none) ∧
    LoopLex.tokenize "continue" =
      ([⟨1, "continue", "continue".toList⟩], none) ∧
    TOKEN_IDENTIFIER ≠ "continue" := by decide

/-- C3 (amended): on any identifier-shaped word, each loop-expression
tokenizer emits a single token, reclassified to a keyword by exact
case-sensitive membership in its own keyword set: `in`, `offset`,
`limit`, `reversed`, `cols`, `continue` for the sub-lexer of
`liquid/expressions/loop/lex.py`, and the same set without `continue` for
`tokenize_loop_expression` of `liquid/lex.py`. -/
theorem c3_theorem (w : List Char) (h : isIdentWordB w = true) :
    LoopLex.tokenize (String.mk w) =
      ([⟨1, if String.mk w ∈ (["in", "offset", "limit", "reversed", "cols", "continue"] :
              List String) then String.mk w else TOKEN_IDENTIFIER, w⟩], none) ∧
    tokenize_loop_expression (String.mk w) =
      ([⟨1, if String.mk w ∈ (["in", "offset", "limit", "reversed", "cols"] :
              List String) then String.mk w else TOKEN_IDENTIFIER, w⟩], none) := by
  cases w with
  | nil => simp [isIdentWordB] at h
  | cons c cs =>
    simp only [isIdentWordB, Bool.and_eq_true, Bool.not_eq_true', List.all_eq_true] at h
    obtain ⟨⟨hw, hd⟩, hrest⟩ := h
    have htw : cs.takeWhile identRestChar = cs := List.takeWhile_eq_self_iff.mpr hrest
    have hrl : runLen identRestChar cs = cs.length := by simp [runLen, htw]
    have hcdot : c ≠ '.' := by
      intro he
      subst he
      exact absurd hw (by decide)
    have hcneg : c ≠ '-' := by
      intro he
      subst he
      exact absurd hw (by decide)
    have hII : mIdentIndex (c :: cs) = none := by
      simp [mIdentIndex, hw, hrl]
    have hIS : mIdentString (c :: cs) = none := by
      simp [mIdentString, hw, hrl]
    have hRange : mRange (c :: cs) = none := by
      cases cs with
      | nil => simp [mRange]
      | cons d cs2 => simp [mRange, hcdot]
    have hFl : mFloatLoop (c :: cs) = none := by
      simp [mFloatLoop, hcneg, floatLoopCore, runLen, List.takeWhile_cons, hd]
    have hInt : mIntWordBound (c :: cs) = none := by
      simp [mIntWordBound, hcneg, intBoundCore, runLen, List.takeWhile_cons, hd]
    have hDot : mChar '.' (c :: cs) = none := by simp [mChar, hcdot]
    have hDig : mDigits (c :: cs) = none := by simp [mDigits, mRun, hd]
    have hId : mIdent identRestChar (c :: cs) = some (1 + cs.length, none) := by
      simp [mIdent, hw, hrl]
    have hfmLoop : firstMatch LoopLex.token_rules (c :: cs) =
        some (TOKEN_IDENTIFIER, 1 + cs.length, none) := by
      simp [LoopLex.token_rules, firstMatch, hII, hIS, hRange, hFl, hInt, hDot, hId]
    have hfmLex : firstMatch loop_expression_rules (c :: cs) =
        some (TOKEN_IDENTIFIER, 1 + cs.length, none) := by
      simp [loop_expression_rules, firstMatch, hDig, hId]
    have hval : (c :: cs).take (1 + cs.length) = c :: cs := by
      rw [Nat.add_comm]
      simp
    have hrst : cs.drop (1 + cs.length - 1) = ([] : List Char) := by simp
    have hnomem : '\n' ∉ c :: cs := by
      intro hmem
      rcases List.mem_cons.mp hmem with he | he
      · rw [← he] at hw
        exact absurd hw (by decide)
      · have := hrest '\n' he
        exact absurd this (by decide)
    have hnl : nlCount (c :: cs) = 0 := by
      rw [nlCount, List.count_eq_zero]
      exact hnomem
    have hkeysA : LoopLex.keywords =
        (["in", "offset", "limit", "reversed", "cols", "continue"] : List String) := rfl
    have hkeysB : loop_expression_keywords =
        (["in", "offset", "limit", "reversed", "cols"] : List String) := rfl
    constructor
    · by_cases hk : String.mk (c :: cs) ∈
          (["in", "offset", "limit", "reversed", "cols", "continue"] : List String)
      · simp [LoopLex.tokenize, String.toList, LoopLex.tokenizeAux, hfmLoop, hval, hrst,
          hnl, hkeysA, hk]
      · simp [LoopLex.tokenize, String.toList, LoopLex.tokenizeAux, hfmLoop, hval, hrst,
          hnl, hkeysA, hk, TOKEN_IDENTIFIER, TOKEN_IDENTINDEX, TOKEN_IDENTSTRING,
          TOKEN_NEWLINE, TOKEN_SKIP, TOKEN_ILLEGAL]
    · by_cases hk : String.mk (c :: cs) ∈
          (["in", "offset", "limit", "reversed", "cols"] : List String)
      · simp [tokenize_loop_expression, runTokenizer, String.toList, tokenizeWith,
          hfmLex, hval, hrst, classify, hkeysB, hk]
      · simp [tokenize_loop_expression, runTokenizer, String.toList, tokenizeWith,
          hfmLex, hval, hrst, classify, hkeysB, hk, TOKEN_IDENTIFIER, TOKEN_STRING,
          TOKEN_ILLEGAL]

/-- Witness for `c3_theorem`: on the word `continue` the sub-lexer of
`liquid/expressions/loop/lex.py` emits a keyword token while
`tokenize_loop_expression` of `liquid/lex.py` emits a generic identifier
token. -/
theorem c3_witness :
    LoopLex.tokenize (String.mk "continue".toList) =
      ([⟨1, "continue", "continue".toList⟩], none) ∧
    tokenize_loop_expression (String.mk "continue".toList) =
      ([⟨1, TOKEN_IDENTIFIER, "continue".toList⟩], none) := by
  have h := c3_theorem "continue".toList (by decide)
  exact ⟨h.1.trans (by decide), h.2.trans (by decide)⟩

/-! ## Reachability of the unknown-operator error (C7) -/

/-- A successful `firstMatch` comes from a rule of the table with that
kind name. -/
lemma firstMatch_mem :
    ∀ (rules : List LexRule) (s : List Char) (nm : String) (k : Nat)
      (q : Option (List Char)), firstMatch rules s = some (nm, k, q) →
      ∃ m, (nm, m) ∈ rules ∧ m s = some (k, q) := by
  intro rules
  induction rules with
  | nil =>
    intro s nm k q h
    simp [firstMatch] at h
  | cons r rs ih =>
    intro s nm k q h
    obtain ⟨n0, m0⟩ := r
    simp only [firstMatch] at h
    cases hm : m0 s with
    | some p =>
      obtain ⟨k0, q0⟩ := p
      rw [hm] at h
      simp only [Option.some.injEq, Prod.mk.injEq] at h
      obtain ⟨rfl, rfl, rfl⟩ := h
      exact ⟨m0, List.mem_cons_self _ _, hm⟩
    | none =>
      rw [hm] at h
      obtain ⟨m, hmem, hms⟩ := ih s nm k q h
      exact ⟨m, List.mem_cons_of_mem _ hmem, hms⟩

/-- The span matched by the `OP` rule is one or two operator
characters. -/
lemma mOp_shape (s : List Char) (k : Nat) (q : Option (List Char))
    (h : mOp s = some (k, q)) :
    s.take k ≠ [] ∧ (s.take k).length ≤ 2 ∧ ∀ x ∈ s.take k, isOpChar x = true := by
  cases s with
  | nil => simp [mOp] at h
  | cons c cs =>
    by_cases hc : isOpChar c
    · cases cs with
      | nil =>
        simp [mOp, hc] at h
        obtain ⟨h1, -⟩ := h
        subst h1
        refine ⟨by simp, by simp, ?_⟩
        intro x hx
        simp at hx
        rw [hx]
        exact hc
      | cons d cs2 =>
        by_cases hd : isOpChar d
        · simp [mOp, hc, hd] at h
          obtain ⟨h1, -⟩ := h
          subst h1
          refine ⟨by simp, by simp [List.take], ?_⟩
          intro x hx
          simp [List.take] at hx
          rcases hx with rfl | rfl
          · exact hc
          · exact hd
        · simp [mOp, hc, hd] at h
          obtain ⟨h1, -⟩ := h
          subst h1
          refine ⟨by simp, by simp [List.take], ?_⟩
          intro x hx
          simp [List.take] at hx
          rw [hx]
          exact hc
    · simp [mOp, hc] at h

/-- In the boolean-expression rule table, a match reported under the `OP`
kind can only come from the `OP` rule itself. -/
lemma boolRules_op (s : List Char) (k : Nat) (q : Option (List Char))
    (h : firstMatch boolean_expression_rules s = some ("OP", k, q)) :
    mOp s = some (k, q) := by
  obtain ⟨m, hmem, hms⟩ := firstMatch_mem _ _ _ _ _ h
  have hmop : m = mOp := by
    simp only [boolean_expression_rules, List.mem_cons, List.not_mem_nil, or_false,
      Prod.mk.injEq] at hmem
    rcases hmem with ⟨he, hm2⟩ | ⟨he, hm2⟩ | ⟨he, hm2⟩ | ⟨he, hm2⟩ | ⟨he, hm2⟩ |
      ⟨he, hm2⟩ | ⟨he, hm2⟩ | ⟨he, hm2⟩ | ⟨he, hm2⟩ | ⟨he, hm2⟩ | ⟨he, hm2⟩ |
      ⟨he, hm2⟩ | ⟨he, hm2⟩
    all_goals first
      | exact hm2
      | (exfalso; revert he; decide)
  rw [hmop] at hms
  exact hms

/-- A `classify` outcome that is the unknown-operator error can only come
from the `OP` branch, and it carries the matched value. -/
lemma classify_unknownOp {kw : List String} {kind : String} {value : List Char}
    {q : Option (List Char)} {line : Nat} {v : List Char} {ln : Nat}
    (h : classify kw kind value q line = .err (.unknownOp v ln)) :
    kind = "OP" ∧ v = value := by
  rw [classify] at h
  split_ifs at h with h1 h2 h3 h4 h5 h6
  · cases hop : operators (String.mk value) with
    | some k2 =>
      rw [hop] at h
      simp at h
    | none =>
      rw [hop] at h
      simp only [StepOut.err.injEq, LexErr.unknownOp.injEq] at h
      exact ⟨h3, h.1.symm⟩
  · simp at h

/-- Through the generic loop, an unknown-operator error always carries a
span produced by the `OP` matcher. -/
lemma tokenizeWith_unknownOp_shape (rules : List LexRule) (kw : List String)
    (H : ∀ s k q, firstMatch rules s = some ("OP", k, q) → mOp s = some (k, q)) :
    ∀ (fuel : Nat) (s : List Char) (line : Nat) (toks : List Token)
      (v : List Char) (ln : Nat),
      tokenizeWith rules kw fuel s line = (toks, some (.unknownOp v ln)) →
      v ≠ [] ∧ v.length ≤ 2 ∧ ∀ x ∈ v, isOpChar x = true := by
  intro fuel
  induction fuel with
  | zero =>
    intro s line toks v ln h
    simp [tokenizeWith] at h
  | succ fuel ih =>
    intro s line toks v ln h
    cases s with
    | nil => simp [tokenizeWith] at h
    | cons c cs =>
      simp only [tokenizeWith] at h
      cases hfm : firstMatch rules (c :: cs) with
      | none =>
        simp only [hfm] at h
        exact ih cs line toks v ln h
      | some r =>
        obtain ⟨kind, k, q⟩ := r
        simp only [hfm] at h
        cases hcl : classify kw kind ((c :: cs).take k) q line with
        | err e =>
          simp only [hcl] at h
          cases e with
          | unexpected v2 ln2 => simp at h
          | eofDelim ln2 => simp at h
          | unknownOp v2 ln2 =>
            simp only [Prod.mk.injEq, Option.some.injEq, LexErr.unknownOp.injEq] at h
            obtain ⟨-, hv2, -⟩ := h
            subst hv2
            obtain ⟨hkind, hv⟩ := classify_unknownOp hcl
            subst hkind
            have hop := H (c :: cs) k q hfm
            have shape := mOp_shape _ _ _ hop
            rw [hv]
            exact shape
        | newlineMark =>
          simp only [hcl] at h
          exact ih _ _ _ _ _ h
        | skipMark =>
          simp only [hcl] at h
          exact ih _ _ _ _ _ h
        | tok t =>
          simp only [hcl] at h
          have h2 : (tokenizeWith rules kw fuel (cs.drop (k - 1)) line).2 =
              some (.unknownOp v ln) := congrArg Prod.snd h
          exact ih (cs.drop (k - 1)) line
            (tokenizeWith rules kw fuel (cs.drop (k - 1)) line).1 v ln (by rw [← h2])

/-- C7: a character matched by no boolean-expression rule other than the
final catch-all raises the unexpected-character error — concretely,
tokenizing `a ~ b` yields the identifier `a` and then the unexpected-`~`
error at line 1, with no operator lookup involved — and the
unknown-operator error can only ever carry a span produced by the `OP`
rule: one or two characters drawn from `!=<>`. -/
theorem c7_theorem :
    tokenize_boolean_expression "a ~ b" =
      ([⟨1, TOKEN_IDENTIFIER, ['a']⟩], some (.unexpected ['~'] 1)) ∧
    ∀ (fuel : Nat) (s : List Char) (line : Nat) (toks : List Token)
      (v : List Char) (ln : Nat),
      tokenizeWith boolean_expression_rules boolean_expression_keywords fuel s line =
        (toks, some (.unknownOp v ln)) →
      v ≠ [] ∧ v.length ≤ 2 ∧ ∀ x ∈ v, isOpChar x = true := by
  constructor
  · decide
  · exact tokenizeWith_unknownOp_shape _ _ boolRules_op

/-- Witness for `c7_theorem`: the operator-shaped span `=!` is matched by
the `OP` rule but absent from the operator table, and the resulting
unknown-operator error indeed carries a one-or-two character `!=<>`
span. -/
theorem c7_witness :
    "=!".toList ≠ ([] : List Char) ∧ "=!".toList.length ≤ 2 ∧
      ∀ x ∈ "=!".toList, isOpChar x = true :=
  c7_theorem.2 7 "a =! b".toList 1 [⟨1, TOKEN_IDENTIFIER, ['a']⟩] "=!".toList 1
    (by decide)

/-! ## Termination and progress bounds (C9) -/

/-- The generic loop emits at most one token per consumed character. -/
lemma tokenizeWith_len :
    ∀ (fuel : Nat) (rules : List LexRule) (kw : List String) (s : List Char)
      (line : Nat), (tokenizeWith rules kw fuel s line).1.length ≤ s.length := by
  intro fuel
  induction fuel with
  | zero =>
    intro rules kw s line
    simp [tokenizeWith]
  | succ fuel ih =>
    intro rules kw s line
    cases s with
    | nil => simp [tokenizeWith]
    | cons c cs =>
      simp only [tokenizeWith]
      cases hfm : firstMatch rules (c :: cs) with
      | none =>
        simp only [hfm]
        have := ih rules kw cs line
        simp only [List.length_cons]
        omega
      | some r =>
        obtain ⟨kind, k, q⟩ := r
        simp only [hfm]
        cases hcl : classify kw kind ((c :: cs).take k) q line with
        | err e => simp [hcl]
        | newlineMark =>
          simp only [hcl]
          have := ih rules kw (cs.drop (k - 1)) (line + 1)
          have hdrop : (cs.drop (k - 1)).length = cs.length - (k - 1) :=
            List.length_drop _ _
          simp only [List.length_cons]
          omega
        | skipMark =>
          simp only [hcl]
          have := ih rules kw (cs.drop (k - 1)) line
          have hdrop : (cs.drop (k - 1)).length = cs.length - (k - 1) :=
            List.length_drop _ _
          simp only [List.length_cons]
          omega
        | tok t =>
          simp only [hcl]
          have := ih rules kw (cs.drop (k - 1)) line
          have hdrop : (cs.drop (k - 1)).length = cs.length - (k - 1) :=
            List.length_drop _ _
          simp only [List.length_cons]
          omega

/-- The loop-expression sub-lexer emits at most one token per consumed
character. -/
lemma loopLex_len :
    ∀ (fuel : Nat) (s : List Char) (line : Nat),
      (LoopLex.tokenizeAux fuel s line).1.length ≤ s.length := by
  intro fuel
  induction fuel with
  | zero =>
    intro s line
    simp [LoopLex.tokenizeAux]
  | succ fuel ih =>
    intro s line
    cases s with
    | nil => simp [LoopLex.tokenizeAux]
    | cons c cs =>
      simp only [LoopLex.tokenizeAux]
      cases hfm : firstMatch LoopLex.token_rules (c :: cs) with
      | none =>
        simp only [hfm]
        have := ih cs line
        simp only [List.length_cons]
        omega
      | some r =>
        obtain ⟨kind, k, q⟩ := r
        simp only [hfm]
        have hdrop : (cs.drop (k - 1)).length = cs.length - (k - 1) :=
          List.length_drop _ _
        split
        · simp
        · have := ih (cs.drop (k - 1)) (line + 1)
          simp only [List.length_cons]
          omega
        · have := ih (cs.drop (k - 1)) line
          simp only [List.length_cons]
          omega
        · next t heq =>
          have := ih (cs.drop (k - 1)) t.linenum
          simp only [List.length_cons]
          omega

/-- The liquid-line sub-lexer emits at most one token per consumed
character... actually at most two (tag and expression) per matched line,
but a matched line consumes at least two characters when it emits two
tokens; the crude bound of two tokens per character suffices for
finiteness. -/
lemma liquidLine_len :
    ∀ (fuel : Nat) (s : List Char) (line : Nat),
      (tokenize_liquid_expression_aux fuel s line).length ≤ 2 * s.length := by
  intro fuel
  induction fuel with
  | zero =>
    intro s line
    simp [tokenize_liquid_expression_aux]
  | succ fuel ih =>
    intro s line
    cases s with
    | nil => simp [tokenize_liquid_expression_aux]
    | cons c cs =>
      simp only [tokenize_liquid_expression_aux]
      cases hlm : liquidLineMatchAt (c :: cs) with
      | none =>
        simp only [hlm]
        have := ih cs line
        simp only [List.length_cons]
        omega
      | some r =>
        obtain ⟨name, expr, n⟩ := r
        simp only [hlm]
        have := ih (cs.drop (n - 1)) (line + nlCount ((c :: cs).take n))
        have hdrop : (cs.drop (n - 1)).length = cs.length - (n - 1) :=
          List.length_drop _ _
        have hble : (if expr = [] then ([] : List Token)
            else [⟨line, TOKEN_EXPRESSION, expr⟩]).length ≤ 1 := by
          split <;> simp
        simp only [List.length_append, List.length_cons]
        omega

/-- The template lexer emits at most two tokens per consumed character
(a tag region can emit both a tag token and an expression token). -/
lemma template_len :
    ∀ (fuel : Nat) (cfg : TemplateCfg) (s : List Char) (line : Nat) (f : Bool),
      (_tokenize_template cfg fuel s line f).1.length ≤ 2 * s.length := by
  intro fuel
  induction fuel with
  | zero =>
    intro cfg s line f
    simp [_tokenize_template]
  | succ fuel ih =>
    intro cfg s line f
    cases s with
    | nil => simp [_tokenize_template]
    | cons c cs =>
      simp only [_tokenize_template]
      cases hm : templateMatch cfg (c :: cs) with
      | rawBlock n interior =>
        simp only [hm]
        have := ih cfg (cs.drop (n - 1)) (line + nlCount ((c :: cs).take n)) f
        have hdrop : (cs.drop (n - 1)).length = cs.length - (n - 1) :=
          List.length_drop _ _
        simp only [List.length_cons]
        omega
      | stmtRegion n inner rss =>
        simp only [hm]
        have := ih cfg (cs.drop (n - 1)) (line + nlCount ((c :: cs).take n)) rss
        have hdrop : (cs.drop (n - 1)).length = cs.length - (n - 1) :=
          List.length_drop _ _
        simp only [List.length_cons]
        omega
      | tagRegion n name expr rst =>
        simp only [hm]
        have := ih cfg (cs.drop (n - 1)) (line + nlCount ((c :: cs).take n)) rst
        have hdrop : (cs.drop (n - 1)).length = cs.length - (n - 1) :=
          List.length_drop _ _
        by_cases he : expr = []
        · simp only [if_pos he, List.length_cons]
          omega
        · simp only [if_neg he, List.length_cons]
          omega
      | litRun n rstrip =>
        simp only [hm]
        have := ih cfg (cs.drop (n - 1)) (line + nlCount ((c :: cs).take n)) f
        have hdrop : (cs.drop (n - 1)).length = cs.length - (n - 1) :=
          List.length_drop _ _
        split
        · simp only [List.length_cons]
          omega
        · split
          · simp
          · split
            · simp
            · simp only [List.length_cons]
              omega

/-- C9: every tokenizer terminates by progress: each successive match
consumes at least one character, so the number of emitted tokens is
bounded by the input length (twice the input length for the template
lexer, whose tag regions emit two tokens, and for the liquid-line
sub-lexer, whose matched lines emit up to two tokens), and scanning either
reaches end of input or stops at a raised error after finitely many
tokens. -/
theorem c9_theorem :
    (∀ (rules : List LexRule) (kw : List String) (fuel : Nat) (s : List Char)
       (line : Nat), (tokenizeWith rules kw fuel s line).1.length ≤ s.length) ∧
    (∀ (fuel : Nat) (s : List Char) (line : Nat),
       (LoopLex.tokenizeAux fuel s line).1.length ≤ s.length) ∧
    (∀ (fuel : Nat) (s : List Char) (line : Nat),
       (tokenize_liquid_expression_aux fuel s line).length ≤ 2 * s.length) ∧
    (∀ (cfg : TemplateCfg) (fuel : Nat) (s : List Char) (line : Nat) (f : Bool),
       (_tokenize_template cfg fuel s line f).1.length ≤ 2 * s.length) :=
  ⟨fun rules kw fuel s line => tokenizeWith_len fuel rules kw s line,
   fun fuel s line => loopLex_len fuel s line,
   fun fuel s line => liquidLine_len fuel s line,
   fun cfg fuel s line f => template_len fuel cfg s line f⟩

end Liquid
